import Mathlib

/-
Verification of the battery threshold-sweep engine (batt4.py) and its
HTTP wrapper (api/analyze.py), as a shallow embedding in Lean 4.

Modelling conventions:
- Python floats are embedded as exact rationals; the literal 1e-12 epsilon
  of the source becomes the rational 1 / 10^12 (epsTol below).
- numpy arrays become lists of rationals; the pandas data frame of the
  loader becomes a list of Row records (timestamp plus kw_import value).
- Python exceptions become Except values; the nan sentinels used for the
  undefined economics fields become Option values.
- The module-level constants of batt4.py (UNIT_KWH, MAX_POWER_KW_PER_UNIT,
  CAPEX_PER_KWH, MD_TARIFF_RM_PER_KW, BILLING_PERIODS_PER_YEAR) are
  gathered into the UnitSpec and EconomicsParams records and passed as
  arguments; their concrete source values are defined further below.
- Rows hold the full-precision computed values; the round(..., 3) calls of
  the source at the very end of the per-threshold loop are presentation
  only (spec section 4.3 item 10 keeps full precision for comparisons).
-/

/-- Epsilon tolerance 1e-12 used by the per-day maximum updates in
compute_threshold_sweep_stats_highest (source lines 141 and 144). -/
def epsTol : ℚ := 1 / 1000000000000

/-- Python int() applied to a rational-valued float: truncation toward zero. -/
def pyInt (q : ℚ) : ℤ := if 0 ≤ q then ⌊q⌋ else ⌈q⌉

/-- Error raised by build_thresholds when the step is zero
(ValueError in the source, InvalidStepError in the spec). -/
inductive ThresholdError where
  | invalidStep
deriving DecidableEq

/-- Descending branch of the while loop of build_thresholds (source lines
84 to 91): emit H; if the next candidate is strictly below the lower bound,
emit it once more and stop, else continue from the next candidate. -/
def descendLoop (endv step : ℚ) (hstep : step < 0) (H : ℚ) : List ℚ :=
  if H + step < endv then [H, H + step]
  else H :: descendLoop endv step hstep (H + step)
termination_by (⌈(H - endv) / (-step)⌉).toNat
decreasing_by
  rename_i hnot
  push_neg at hnot
  have hs : 0 < -step := by linarith
  have h1 : (1 : ℚ) ≤ (H - endv) / (-step) := by
    rw [le_div_iff₀ hs]; linarith
  have hle : (H + step - endv) / (-step) = (H - endv) / (-step) - 1 := by
    have hx : H + step - endv = (H - endv) - (-step) := by ring
    rw [hx, sub_div, div_self (ne_of_gt hs)]
  rw [hle, Int.ceil_sub_one]
  have hc : (1 : ℤ) ≤ ⌈(H - endv) / (-step)⌉ := by
    calc (1 : ℤ) = ⌈(1 : ℚ)⌉ := by norm_num
    _ ≤ ⌈(H - endv) / (-step)⌉ := Int.ceil_mono h1
  omega

/-- Ascending branch of the while loop of build_thresholds (source lines
92 to 99): emit H; if the next candidate is strictly above the upper bound,
emit it once more and stop, else continue from the next candidate. -/
def ascendLoop (endv step : ℚ) (hstep : 0 < step) (H : ℚ) : List ℚ :=
  if endv < H + step then [H, H + step]
  else H :: ascendLoop endv step hstep (H + step)
termination_by (⌈(endv - H) / step⌉).toNat
decreasing_by
  rename_i hnot
  push_neg at hnot
  have h1 : (1 : ℚ) ≤ (endv - H) / step := by
    rw [le_div_iff₀ hstep]; linarith
  have hle : (endv - (H + step)) / step = (endv - H) / step - 1 := by
    have hx : endv - (H + step) = (endv - H) - step := by ring
    rw [hx, sub_div, div_self (ne_of_gt hstep)]
  rw [hle, Int.ceil_sub_one]
  have hc : (1 : ℤ) ≤ ⌈(endv - H) / step⌉ := by
    calc (1 : ℤ) = ⌈(1 : ℚ)⌉ := by norm_num
    _ ≤ ⌈(endv - H) / step⌉ := Int.ceil_mono h1
  omega

/-- build_thresholds (source lines 78 to 100): reject a zero step, then run
the descending or ascending loop from the start value. -/
def build_thresholds (start_kw end_kw step_kw : ℚ) :
    Except ThresholdError (List ℚ) :=
  if h0 : step_kw = 0 then .error .invalidStep
  else if hneg : step_kw < 0 then .ok (descendLoop end_kw step_kw hneg start_kw)
  else .ok (ascendLoop end_kw step_kw
    (lt_of_le_of_ne (not_lt.mp hneg) (Ne.symm h0)) start_kw)

/-- Calendar timestamp of one reading (the parsed start_time column).
Minute resolution suffices for the half-hour data the loader handles. -/
structure Timestamp where
  year : ℕ
  month : ℕ
  day : ℕ
  hour : ℕ
  minute : ℕ
deriving DecidableEq

/-- Calendar date extracted from a timestamp (the .dt.date accessor). -/
structure CalDate where
  year : ℕ
  month : ℕ
  day : ℕ
deriving DecidableEq

/-- Date part of a timestamp. -/
def Timestamp.date (t : Timestamp) : CalDate :=
  ⟨t.year, t.month, t.day⟩

/-- Chronological order on timestamps (lexicographic on the fields). -/
def Timestamp.le (s t : Timestamp) : Prop :=
  s.year < t.year ∨ (s.year = t.year ∧ (s.month < t.month ∨ (s.month = t.month ∧
    (s.day < t.day ∨ (s.day = t.day ∧ (s.hour < t.hour ∨ (s.hour = t.hour ∧
      s.minute ≤ t.minute)))))))

instance (s t : Timestamp) : Decidable (Timestamp.le s t) := by
  unfold Timestamp.le; infer_instance

/-- Chronological order on calendar dates (lexicographic on the fields). -/
def CalDate.le (a b : CalDate) : Prop :=
  a.year < b.year ∨ (a.year = b.year ∧ (a.month < b.month ∨ (a.month = b.month ∧
    a.day ≤ b.day)))

instance (a b : CalDate) : Decidable (CalDate.le a b) := by
  unfold CalDate.le; infer_instance

/-- One row of the source table: the start_time and kw_import columns. -/
structure Row where
  start_time : Timestamp
  kw_import : ℚ
deriving DecidableEq

/-- Order on rows by timestamp, as used by sort_values on start_time. -/
def rowLe (a b : Row) : Prop := Timestamp.le a.start_time b.start_time

instance : DecidableRel rowLe := fun a b =>
  inferInstanceAs (Decidable (Timestamp.le a.start_time b.start_time))

instance : IsTotal Row rowLe :=
  ⟨fun a b => by unfold rowLe Timestamp.le; omega⟩

instance : IsTrans Row rowLe :=
  ⟨fun a b c => by unfold rowLe Timestamp.le; omega⟩

/-- One day of demand readings inside the analysis window: the
(date, demand array, time labels) triple built by load_month.  A label is
the (hour, minute) pair that strftime renders as HH:MM. -/
structure DaySeries where
  date : CalDate
  demand : List ℚ
  labels : List (ℕ × ℕ)
deriving DecidableEq

/-- Order on day series by date, as used by the final sort of load_months. -/
def daySeriesLe (a b : DaySeries) : Prop := CalDate.le a.date b.date

instance : DecidableRel daySeriesLe := fun a b =>
  inferInstanceAs (Decidable (CalDate.le a.date b.date))

instance : IsTotal DaySeries daySeriesLe :=
  ⟨fun a b => by unfold daySeriesLe CalDate.le; omega⟩

instance : IsTrans DaySeries daySeriesLe :=
  ⟨fun a b c => by unfold daySeriesLe CalDate.le; omega⟩

/-- Loader errors: the two RuntimeError raises of load_month, named as in
the spec error taxonomy. -/
inductive LoadError where
  | noData
  | noQualifyingDays
deriving DecidableEq

/-- Rows of the dataset whose timestamp matches the (year, month) selector
(the mask of source line 46). -/
def monthRows (rows : List Row) (year month : ℕ) : List Row :=
  rows.filter fun r =>
    decide (r.start_time.year = year ∧ r.start_time.month = month)

/-- Window predicate of source line 54: hour-of-day inside the half-open
analysis window.  The source hardcodes start_hour = 14 and end_hour = 22;
following the configuration note of the spec they are parameters here. -/
def inWindow (start_hour end_hour : ℕ) (r : Row) : Bool :=
  decide (start_hour ≤ r.start_time.hour ∧ r.start_time.hour < end_hour)

/-- Rows of one date group after the window restriction: the rows of the
sorted month sharing the calendar date d (the pandas group, in sorted
order) kept only when their hour lies in the analysis window (the g2 frame
of source line 54). -/
def dayGroup (sorted : List Row) (start_hour end_hour : ℕ) (d : CalDate) :
    List Row :=
  (sorted.filter fun r => decide (r.start_time.date = d)).filter
    (inWindow start_hour end_hour)

/-- DaySeries built from one nonempty window-restricted group (source
lines 57 to 59). -/
def daySeriesOf (g2 : List Row) (d : CalDate) : DaySeries :=
  ⟨d, g2.map (·.kw_import),
    g2.map fun r => (r.start_time.hour, r.start_time.minute)⟩

/-- Day list of the grouping loop of source lines 51 to 59: one candidate
group per distinct calendar date of the sorted month, dropping groups
emptied by the window restriction. -/
def loadDays (sorted : List Row) (start_hour end_hour : ℕ) :
    List DaySeries :=
  ((sorted.map fun r => r.start_time.date).dedup).filterMap fun d =>
    if dayGroup sorted start_hour end_hour d = [] then none
    else some (daySeriesOf (dayGroup sorted start_hour end_hour d) d)

/-- load_month (source lines 41 to 63): filter to the selected month, fail
when empty, sort chronologically, group by calendar date (pandas groupby:
one group per distinct date holding all its rows in sorted order), restrict
each group to the analysis window, drop groups that become empty, fail when
every group is dropped. -/
def load_month (rows : List Row) (year month start_hour end_hour : ℕ) :
    Except LoadError (List DaySeries) :=
  let dfm := monthRows rows year month
  if dfm = [] then .error .noData
  else
    let days := loadDays (List.insertionSort rowLe dfm) start_hour end_hour
    if days = [] then .error .noQualifyingDays else .ok days

/-- Concatenation part of load_months (source lines 68 to 70): run
load_month per selector, propagating the first failure, and append the
per-month day lists in selector order. -/
def loadMonthsConcat (rows : List Row) (start_hour end_hour : ℕ) :
    List (ℕ × ℕ) → Except LoadError (List DaySeries)
  | [] => .ok []
  | (y, m) :: rest =>
    match load_month rows y m start_hour end_hour with
    | .error e => .error e
    | .ok d =>
      match loadMonthsConcat rows start_hour end_hour rest with
      | .error e => .error e
      | .ok r => .ok (d ++ r)

/-- load_months (source lines 66 to 72): concatenate the day series of all
selectors, then sort the combined list by date. -/
def load_months (rows : List Row) (year_months : List (ℕ × ℕ))
    (start_hour end_hour : ℕ) : Except LoadError (List DaySeries) :=
  (loadMonthsConcat rows start_hour end_hour year_months).map
    (List.insertionSort daySeriesLe)

/-- Physical rating of one battery unit (source constants UNIT_KWH and
MAX_POWER_KW_PER_UNIT, gathered per the spec data model).  The source guard
for a None power cap (treated as infinite) is dead code for the single
configuration shipped, so the cap is a plain rational here. -/
structure UnitSpec where
  nameplate_energy_kWh : ℚ
  max_power_kW : ℚ
deriving DecidableEq

/-- Economic constants of the sweep (source constants CAPEX_PER_KWH,
MD_TARIFF_RM_PER_KW and BILLING_PERIODS_PER_YEAR). -/
structure EconomicsParams where
  capex_per_kWh : ℚ
  demand_tariff_per_kW : ℚ
  billing_periods_per_year : ℕ
deriving DecidableEq

/-- Elementwise shaving vector of source line 137:
shave[i] = max(demand[i] - H, 0). -/
def shaveList (H : ℚ) (D : List ℚ) : List ℚ :=
  D.map fun d => max (d - H) 0

/-- Per-day shaving energy of source line 138: sum(shave) * dt. -/
def dayEnergy (dt H : ℚ) (D : List ℚ) : ℚ :=
  (shaveList H D).sum * dt

/-- Per-day shaving peak of source line 139: max(shave), 0 for an empty
day.  Since every shave entry is nonnegative, folding max from 0 agrees
with np.max on nonempty input and gives the 0 default on empty input. -/
def dayPeak (H : ℚ) (D : List ℚ) : ℚ :=
  (shaveList H D).foldl max 0

/-- Running state of the per-day loop of source lines 130 to 146, generic
in the type of the day identifier. -/
structure HighestAcc (α : Type) where
  highest_energy : ℚ
  highest_energy_day : Option α
  highest_peak : ℚ
  highest_peak_day : Option α

/-- One iteration of the per-day loop (source lines 136 to 146): replace a
running maximum only when the new day exceeds it by more than epsTol. -/
def stepDay {α : Type} (dt H : ℚ) (acc : HighestAcc α) (pr : α × List ℚ) :
    HighestAcc α :=
  let E := dayEnergy dt H pr.2
  let P := dayPeak H pr.2
  { highest_energy := if acc.highest_energy + epsTol < E then E
      else acc.highest_energy
    highest_energy_day := if acc.highest_energy + epsTol < E then some pr.1
      else acc.highest_energy_day
    highest_peak := if acc.highest_peak + epsTol < P then P
      else acc.highest_peak
    highest_peak_day := if acc.highest_peak + epsTol < P then some pr.1
      else acc.highest_peak_day }

/-- Whole per-day loop for one threshold, starting from zeros and None
days (source lines 130 to 146). -/
def foldDays {α : Type} (dt H : ℚ) (days : List (α × List ℚ)) :
    HighestAcc α :=
  days.foldl (stepDay dt H) ⟨0, none, 0, none⟩

/-- Minimal units by power (source line 149).  The np.isfinite guard is
always taken since the power cap is a rational. -/
def unitsPower (spec : UnitSpec) (hp : ℚ) : ℤ :=
  ⌈hp / spec.max_power_kW⌉

/-- Minimal units by nameplate energy with the positivity guard of source
line 150. -/
def unitsEnergy (spec : UnitSpec) (he : ℚ) : ℤ :=
  if 0 < spec.nameplate_energy_kWh then ⌈he / spec.nameplate_energy_kWh⌉
  else 0

/-- Minimal units needed (source lines 151 to 155): max of the two counts,
forced to 1 when it is 0 while some shaving occurred. -/
def unitsNeededCalc (spec : UnitSpec) (hp he : ℚ) : ℤ :=
  let u := max (unitsPower spec hp) (unitsEnergy spec he)
  if u = 0 ∧ (0 < hp ∨ 0 < he) then 1 else u

/-- Fit flag for a stack of u units (source lines 158 to 162). -/
def fitsUnit (spec : UnitSpec) (hp he : ℚ) (u : ℕ) : Bool :=
  decide (hp ≤ u * spec.max_power_kW ∧ he ≤ u * spec.nameplate_energy_kWh)

/-- Limiting factor labels of source lines 164 to 172. -/
inductive LimitingFactor where
  | noShaving
  | powerLimited
  | energyLimited
  | bothEnergyAndPower
deriving DecidableEq

/-- One output record of the sweep (source lines 187 to 202), holding the
full-precision values computed by the per-threshold loop body. -/
structure SweepRow (α : Type) where
  threshold_kW : ℚ
  highest_energy_kWh : ℚ
  highest_energy_day : Option α
  highest_peak_shaved_kW : ℚ
  highest_peak_day : Option α
  min_units_required : ℤ
  min_capacity_kWh : ℤ
  limiting_factor : LimitingFactor
  payback_years : Option ℚ
  efficiency : Option ℚ
  fits_1x : Bool
  fits_2x : Bool
  fits_3x : Bool
  fits_4x : Bool

/-- Body of the per-threshold loop of compute_threshold_sweep_stats_highest
(source lines 129 to 202) for a single threshold H. -/
def evalThreshold {α : Type} (spec : UnitSpec) (econ : EconomicsParams)
    (dt : ℚ) (days : List (α × List ℚ)) (H : ℚ) : SweepRow α :=
  let acc := foldDays dt H days
  let up := unitsPower spec acc.highest_peak
  let ue := unitsEnergy spec acc.highest_energy
  let units := unitsNeededCalc spec acc.highest_peak acc.highest_energy
  let minCap : ℤ := pyInt ((units : ℚ) * spec.nameplate_energy_kWh)
  let limiting : LimitingFactor :=
    if acc.highest_peak = 0 ∧ acc.highest_energy = 0 then .noShaving
    else if ue < up then .powerLimited
    else if up < ue then .energyLimited
    else .bothEnergyAndPower
  let econDefined := 0 < acc.highest_peak ∧ 0 < minCap
  { threshold_kW := H
    highest_energy_kWh := acc.highest_energy
    highest_energy_day := acc.highest_energy_day
    highest_peak_shaved_kW := acc.highest_peak
    highest_peak_day := acc.highest_peak_day
    min_units_required := units
    min_capacity_kWh := minCap
    limiting_factor := limiting
    payback_years := if econDefined then
        some ((econ.capex_per_kWh * (minCap : ℚ)) /
          (acc.highest_peak * econ.demand_tariff_per_kW *
            (econ.billing_periods_per_year : ℚ)))
      else none
    efficiency := if econDefined then
        some (acc.highest_peak / (minCap : ℚ))
      else none
    fits_1x := fitsUnit spec acc.highest_peak acc.highest_energy 1
    fits_2x := fitsUnit spec acc.highest_peak acc.highest_energy 2
    fits_3x := fitsUnit spec acc.highest_peak acc.highest_energy 3
    fits_4x := fitsUnit spec acc.highest_peak acc.highest_energy 4 }

/-- compute_threshold_sweep_stats_highest (source lines 103 to 204): build
the threshold sequence and evaluate every threshold in order over the
cached (day, demand) pairs. -/
def compute_threshold_sweep_stats_highest {α : Type}
    (days : List (α × List ℚ)) (dt start_kw end_kw step_kw : ℚ)
    (spec : UnitSpec) (econ : EconomicsParams) :
    Except ThresholdError (List (SweepRow α)) :=
  (build_thresholds start_kw end_kw step_kw).map fun thresholds =>
    thresholds.map (evalThreshold spec econ dt days)

/-- Source constant UNIT_KWH together with MAX_POWER_KW_PER_UNIT. -/
def defaultUnit : UnitSpec := ⟨233, 105⟩

/-- Source constants CAPEX_PER_KWH, MD_TARIFF_RM_PER_KW (97.06) and
BILLING_PERIODS_PER_YEAR. -/
def defaultEcon : EconomicsParams := ⟨1350, 4853 / 50, 12⟩

/-- Source constant INTERVAL_HOURS. -/
def INTERVAL_HOURS : ℚ := 1 / 2

/-- Source constant SWEEP_START_KW. -/
def SWEEP_START_KW : ℚ := 1100

/-- Source constant SWEEP_END_KW. -/
def SWEEP_END_KW : ℚ := 695

/-- Source constant SWEEP_STEP_KW. -/
def SWEEP_STEP_KW : ℚ := -25

/-- Maximum over days of the per-day shaving energy, the quantity the spec
text calls max over days of E_day (0 when there are no days). -/
def maxEnergyOverDays {α : Type} (dt H : ℚ) (days : List (α × List ℚ)) : ℚ :=
  days.foldl (fun m pr => max m (dayEnergy dt H pr.2)) 0

/-- Maximum over days of the per-day shaving peak, the quantity the spec
text calls max over days of P_day (0 when there are no days). -/
def maxPeakOverDays {α : Type} (H : ℚ) (days : List (α × List ℚ)) : ℚ :=
  days.foldl (fun m pr => max m (dayPeak H pr.2)) 0

lemma epsTol_pos : (0 : ℚ) < epsTol := by norm_num [epsTol]

lemma foldl_stepDay_energy {α : Type} (dt H : ℚ) :
    ∀ (l : List (α × List ℚ)) (acc : HighestAcc α),
      (l.foldl (stepDay dt H) acc).highest_energy =
        l.foldl
          (fun s pr => if s + epsTol < dayEnergy dt H pr.2 then
            dayEnergy dt H pr.2 else s)
          acc.highest_energy
  | [], _ => rfl
  | x :: l, acc => by
    rw [List.foldl_cons, List.foldl_cons, foldl_stepDay_energy dt H l]
    rfl

lemma foldl_stepDay_peak {α : Type} (dt H : ℚ) :
    ∀ (l : List (α × List ℚ)) (acc : HighestAcc α),
      (l.foldl (stepDay dt H) acc).highest_peak =
        l.foldl
          (fun s pr => if s + epsTol < dayPeak H pr.2 then
            dayPeak H pr.2 else s)
          acc.highest_peak
  | [], _ => rfl
  | x :: l, acc => by
    rw [List.foldl_cons, List.foldl_cons, foldl_stepDay_peak dt H l]
    rfl

lemma epsFold_le_maxFold {β : Type} (f : β → ℚ) :
    ∀ (l : List β) (a b : ℚ), a ≤ b →
      l.foldl (fun s x => if s + epsTol < f x then f x else s) a ≤
        l.foldl (fun m x => max m (f x)) b
  | [], _, _, h => h
  | x :: l, a, b, h => by
    rw [List.foldl_cons, List.foldl_cons]
    refine epsFold_le_maxFold f l _ _ ?_
    by_cases hx : a + epsTol < f x
    · rw [if_pos hx]; exact le_max_right b (f x)
    · rw [if_neg hx]; exact le_trans h (le_max_left b (f x))

lemma maxFold_le_epsFold_add {β : Type} (f : β → ℚ) :
    ∀ (l : List β) (a b : ℚ), b ≤ a + epsTol →
      l.foldl (fun m x => max m (f x)) b ≤
        l.foldl (fun s x => if s + epsTol < f x then f x else s) a + epsTol
  | [], _, _, h => h
  | x :: l, a, b, h => by
    rw [List.foldl_cons, List.foldl_cons]
    refine maxFold_le_epsFold_add f l _ _ ?_
    by_cases hx : a + epsTol < f x
    · rw [if_pos hx]
      refine max_le (le_trans h ?_) ?_
      · linarith [epsTol_pos]
      · linarith [epsTol_pos]
    · rw [if_neg hx]
      push_neg at hx
      exact max_le h hx

lemma epsFold_init_le {β : Type} (f : β → ℚ) :
    ∀ (l : List β) (a : ℚ),
      a ≤ l.foldl (fun s x => if s + epsTol < f x then f x else s) a
  | [], _ => le_rfl
  | x :: l, a => by
    rw [List.foldl_cons]
    refine le_trans ?_ (epsFold_init_le f l _)
    by_cases hx : a + epsTol < f x
    · rw [if_pos hx]; linarith [epsTol_pos]
    · rw [if_neg hx]

lemma maxFold_mono {β : Type} (f g : β → ℚ) :
    ∀ (l : List β) (a b : ℚ), a ≤ b → (∀ x ∈ l, f x ≤ g x) →
      l.foldl (fun m x => max m (f x)) a ≤ l.foldl (fun m x => max m (g x)) b
  | [], _, _, h, _ => h
  | x :: l, a, b, h, hfg => by
    rw [List.foldl_cons, List.foldl_cons]
    refine maxFold_mono f g l _ _ ?_ fun y hy => hfg y (List.mem_cons_of_mem x hy)
    exact max_le_max h (hfg x (List.mem_cons_self x l))

lemma foldDays_energy_le_max {α : Type} (dt H : ℚ)
    (days : List (α × List ℚ)) :
    (foldDays dt H days).highest_energy ≤ maxEnergyOverDays dt H days := by
  rw [foldDays, foldl_stepDay_energy, maxEnergyOverDays]
  exact epsFold_le_maxFold _ days 0 0 le_rfl

lemma max_le_foldDays_energy_add {α : Type} (dt H : ℚ)
    (days : List (α × List ℚ)) :
    maxEnergyOverDays dt H days ≤ (foldDays dt H days).highest_energy + epsTol := by
  rw [foldDays, foldl_stepDay_energy, maxEnergyOverDays]
  exact maxFold_le_epsFold_add _ days 0 0 (by linarith [epsTol_pos])

lemma foldDays_peak_le_max {α : Type} (dt H : ℚ)
    (days : List (α × List ℚ)) :
    (foldDays dt H days).highest_peak ≤ maxPeakOverDays H days := by
  rw [foldDays, foldl_stepDay_peak, maxPeakOverDays]
  exact epsFold_le_maxFold _ days 0 0 le_rfl

lemma max_le_foldDays_peak_add {α : Type} (dt H : ℚ)
    (days : List (α × List ℚ)) :
    maxPeakOverDays H days ≤ (foldDays dt H days).highest_peak + epsTol := by
  rw [foldDays, foldl_stepDay_peak, maxPeakOverDays]
  exact maxFold_le_epsFold_add _ days 0 0 (by linarith [epsTol_pos])

lemma foldDays_energy_nonneg {α : Type} (dt H : ℚ)
    (days : List (α × List ℚ)) : 0 ≤ (foldDays dt H days).highest_energy := by
  rw [foldDays, foldl_stepDay_energy]
  exact epsFold_init_le _ days 0

lemma foldDays_peak_nonneg {α : Type} (dt H : ℚ)
    (days : List (α × List ℚ)) : 0 ≤ (foldDays dt H days).highest_peak := by
  rw [foldDays, foldl_stepDay_peak]
  exact epsFold_init_le _ days 0

lemma foldl_stepDay_energy_attains {α : Type} (dt H : ℚ) :
    ∀ (l : List (α × List ℚ)) (acc : HighestAcc α) (a : α),
      (l.foldl (stepDay dt H) acc).highest_energy_day = some a →
      (∃ pr ∈ l, pr.1 = a ∧
        dayEnergy dt H pr.2 = (l.foldl (stepDay dt H) acc).highest_energy) ∨
      (acc.highest_energy_day = some a ∧
        (l.foldl (stepDay dt H) acc).highest_energy = acc.highest_energy)
  | [], _, _, h => .inr ⟨h, rfl⟩
  | x :: l, acc, a, h => by
    rw [List.foldl_cons] at h ⊢
    rcases foldl_stepDay_energy_attains dt H l (stepDay dt H acc x) a h with
      ⟨pr, hmem, heq, hval⟩ | ⟨hday, hval⟩
    · exact .inl ⟨pr, List.mem_cons_of_mem x hmem, heq, hval⟩
    · by_cases hx : acc.highest_energy + epsTol < dayEnergy dt H x.2
      · refine .inl ⟨x, List.mem_cons_self x l, ?_, ?_⟩
        · have : (stepDay dt H acc x).highest_energy_day = some x.1 := by
            simp [stepDay, hx]
          rw [this] at hday
          exact Option.some_inj.mp hday
        · rw [hval]
          simp [stepDay, hx]
      · refine .inr ⟨?_, ?_⟩
        · have : (stepDay dt H acc x).highest_energy_day =
              acc.highest_energy_day := by simp [stepDay, hx]
          rwa [this] at hday
        · rw [hval]; simp [stepDay, hx]

lemma foldl_stepDay_peak_attains {α : Type} (dt H : ℚ) :
    ∀ (l : List (α × List ℚ)) (acc : HighestAcc α) (a : α),
      (l.foldl (stepDay dt H) acc).highest_peak_day = some a →
      (∃ pr ∈ l, pr.1 = a ∧
        dayPeak H pr.2 = (l.foldl (stepDay dt H) acc).highest_peak) ∨
      (acc.highest_peak_day = some a ∧
        (l.foldl (stepDay dt H) acc).highest_peak = acc.highest_peak)
  | [], _, _, h => .inr ⟨h, rfl⟩
  | x :: l, acc, a, h => by
    rw [List.foldl_cons] at h ⊢
    rcases foldl_stepDay_peak_attains dt H l (stepDay dt H acc x) a h with
      ⟨pr, hmem, heq, hval⟩ | ⟨hday, hval⟩
    · exact .inl ⟨pr, List.mem_cons_of_mem x hmem, heq, hval⟩
    · by_cases hx : acc.highest_peak + epsTol < dayPeak H x.2
      · refine .inl ⟨x, List.mem_cons_self x l, ?_, ?_⟩
        · have : (stepDay dt H acc x).highest_peak_day = some x.1 := by
            simp [stepDay, hx]
          rw [this] at hday
          exact Option.some_inj.mp hday
        · rw [hval]
          simp [stepDay, hx]
      · refine .inr ⟨?_, ?_⟩
        · have : (stepDay dt H acc x).highest_peak_day =
              acc.highest_peak_day := by simp [stepDay, hx]
          rwa [this] at hday
        · rw [hval]; simp [stepDay, hx]

lemma shaveSum_anti (H1 H2 : ℚ) (h : H1 ≤ H2) :
    ∀ D : List ℚ, (shaveList H2 D).sum ≤ (shaveList H1 D).sum
  | [] => le_rfl
  | d :: D => by
    have hd : max (d - H2) 0 ≤ max (d - H1) 0 :=
      max_le_max (by linarith) le_rfl
    simpa [shaveList, List.sum_cons] using
      add_le_add hd (shaveSum_anti H1 H2 h D)

lemma dayEnergy_anti (dt H1 H2 : ℚ) (hdt : 0 ≤ dt) (h : H1 ≤ H2)
    (D : List ℚ) : dayEnergy dt H2 D ≤ dayEnergy dt H1 D :=
  mul_le_mul_of_nonneg_right (shaveSum_anti H1 H2 h D) hdt

lemma dayPeak_anti (H1 H2 : ℚ) (h : H1 ≤ H2) (D : List ℚ) :
    dayPeak H2 D ≤ dayPeak H1 D := by
  rw [dayPeak, dayPeak, shaveList, shaveList, List.foldl_map, List.foldl_map]
  exact maxFold_mono _ _ D 0 0 le_rfl
    fun d _ => max_le_max (by linarith) le_rfl

lemma maxEnergyOverDays_anti {α : Type} (dt H1 H2 : ℚ) (hdt : 0 ≤ dt)
    (h : H1 ≤ H2) (days : List (α × List ℚ)) :
    maxEnergyOverDays dt H2 days ≤ maxEnergyOverDays dt H1 days :=
  maxFold_mono _ _ days 0 0 le_rfl
    fun pr _ => dayEnergy_anti dt H1 H2 hdt h pr.2

lemma maxPeakOverDays_anti {α : Type} (H1 H2 : ℚ) (h : H1 ≤ H2)
    (days : List (α × List ℚ)) :
    maxPeakOverDays H2 days ≤ maxPeakOverDays H1 days :=
  maxFold_mono _ _ days 0 0 le_rfl
    fun pr _ => dayPeak_anti H1 H2 h pr.2

/-- C1 counterexample: with a single day whose only reading sits epsTol
above the threshold, the epsilon-guarded update never fires, so the row
records highest_energy 0 while the true maximum over days of E_day is
epsTol / 2 times dt = epsTol, refuting the claimed equality with the
maximum (dt = 1, H = 0, demand [epsTol]). -/
theorem c1_highest_equals_max_counterexample :
    ¬ ((evalThreshold defaultUnit defaultEcon 1
          [((0 : ℕ), [epsTol])] 0).highest_energy_kWh =
        maxEnergyOverDays 1 0 [((0 : ℕ), [epsTol])]) := by
  have hE : (evalThreshold defaultUnit defaultEcon 1
      [((0 : ℕ), [epsTol])] 0).highest_energy_kWh =
      (foldDays 1 0 [((0 : ℕ), [epsTol])]).highest_energy := rfl
  rw [hE, foldDays, maxEnergyOverDays]
  simp only [List.foldl_cons, List.foldl_nil, stepDay]
  norm_num [dayEnergy, shaveList, max_def, epsTol]

/-- C1 amended: for every threshold, the row values highest_energy and
highest_peak lie within epsTol below the true maxima over days of E_day
and P_day respectively (equality can fail only inside that tolerance), and
each recorded day, when non-null, is a day of the input attaining exactly
the recorded value. -/
theorem c1_highest_within_eps {α : Type} (spec : UnitSpec)
    (econ : EconomicsParams) (dt : ℚ) (days : List (α × List ℚ)) (H : ℚ) :
    (maxEnergyOverDays dt H days - epsTol ≤
        (evalThreshold spec econ dt days H).highest_energy_kWh ∧
      (evalThreshold spec econ dt days H).highest_energy_kWh ≤
        maxEnergyOverDays dt H days) ∧
    (maxPeakOverDays H days - epsTol ≤
        (evalThreshold spec econ dt days H).highest_peak_shaved_kW ∧
      (evalThreshold spec econ dt days H).highest_peak_shaved_kW ≤
        maxPeakOverDays H days) ∧
    (∀ a, (evalThreshold spec econ dt days H).highest_energy_day = some a →
      ∃ pr ∈ days, pr.1 = a ∧ dayEnergy dt H pr.2 =
        (evalThreshold spec econ dt days H).highest_energy_kWh) ∧
    (∀ a, (evalThreshold spec econ dt days H).highest_peak_day = some a →
      ∃ pr ∈ days, pr.1 = a ∧ dayPeak H pr.2 =
        (evalThreshold spec econ dt days H).highest_peak_shaved_kW) := by
  have hE : (evalThreshold spec econ dt days H).highest_energy_kWh =
      (foldDays dt H days).highest_energy := rfl
  have hP : (evalThreshold spec econ dt days H).highest_peak_shaved_kW =
      (foldDays dt H days).highest_peak := rfl
  have hED : (evalThreshold spec econ dt days H).highest_energy_day =
      (foldDays dt H days).highest_energy_day := rfl
  have hPD : (evalThreshold spec econ dt days H).highest_peak_day =
      (foldDays dt H days).highest_peak_day := rfl
  refine ⟨⟨?_, ?_⟩, ⟨?_, ?_⟩, ?_, ?_⟩
  · rw [hE]; linarith [max_le_foldDays_energy_add dt H days]
  · rw [hE]; exact foldDays_energy_le_max dt H days
  · rw [hP]; linarith [max_le_foldDays_peak_add dt H days]
  · rw [hP]; exact foldDays_peak_le_max dt H days
  · intro a ha
    rw [hED] at ha
    rcases foldl_stepDay_energy_attains dt H days ⟨0, none, 0, none⟩ a ha
      with h | ⟨hcon, _⟩
    · rw [hE]; exact h
    · exact absurd hcon (by simp)
  · intro a ha
    rw [hPD] at ha
    rcases foldl_stepDay_peak_attains dt H days ⟨0, none, 0, none⟩ a ha
      with h | ⟨hcon, _⟩
    · rw [hP]; exact h
    · exact absurd hcon (by simp)

/-- C1 witness: concrete instantiation of the amended theorem at one day
with demand [2], dt = 1, H = 0, discharging the recorded-day hypothesis. -/
theorem c1_highest_within_eps_witness :
    ∃ pr ∈ [((0 : ℕ), [(2 : ℚ)])], pr.1 = 0 ∧ dayEnergy 1 0 pr.2 =
      (evalThreshold defaultUnit defaultEcon 1
        [((0 : ℕ), [(2 : ℚ)])] 0).highest_energy_kWh :=
  (c1_highest_within_eps defaultUnit defaultEcon 1
    [((0 : ℕ), [(2 : ℚ)])] 0).2.2.1 0 (by
      have hD : (evalThreshold defaultUnit defaultEcon 1
          [((0 : ℕ), [(2 : ℚ)])] 0).highest_energy_day =
          (foldDays 1 0 [((0 : ℕ), [(2 : ℚ)])]).highest_energy_day := rfl
      rw [hD, foldDays]
      simp only [List.foldl_cons, List.foldl_nil, stepDay]
      norm_num [dayEnergy, shaveList, max_def, epsTol])

lemma descendLoop_headq (endv step : ℚ) (hstep : step < 0) (H : ℚ) :
    (descendLoop endv step hstep H).head? = some H := by
  rw [descendLoop]
  split <;> rfl

lemma descendLoop_chain (endv step : ℚ) (hstep : step < 0) (H : ℚ) :
    (descendLoop endv step hstep H).Chain' (fun a b => b = a + step) := by
  induction H using descendLoop.induct endv step hstep with
  | case1 H h =>
    rw [descendLoop, if_pos h]
    exact List.chain'_cons.mpr ⟨rfl, List.chain'_singleton _⟩
  | case2 H h ih =>
    rw [descendLoop, if_neg h]
    refine List.chain'_cons'.mpr ⟨?_, ih⟩
    intro y hy
    rw [descendLoop_headq] at hy
    exact (Option.some_inj.mp hy).symm

lemma ascendLoop_headq (endv step : ℚ) (hstep : 0 < step) (H : ℚ) :
    (ascendLoop endv step hstep H).head? = some H := by
  rw [ascendLoop]
  split <;> rfl

lemma ascendLoop_chain (endv step : ℚ) (hstep : 0 < step) (H : ℚ) :
    (ascendLoop endv step hstep H).Chain' (fun a b => b = a + step) := by
  induction H using ascendLoop.induct endv step hstep with
  | case1 H h =>
    rw [ascendLoop, if_pos h]
    exact List.chain'_cons.mpr ⟨rfl, List.chain'_singleton _⟩
  | case2 H h ih =>
    rw [ascendLoop, if_neg h]
    refine List.chain'_cons'.mpr ⟨?_, ih⟩
    intro y hy
    rw [ascendLoop_headq] at hy
    exact (Option.some_inj.mp hy).symm

lemma descendLoop_start_below (endv step : ℚ) (hstep : step < 0) (H : ℚ)
    (h : H < endv) : descendLoop endv step hstep H = [H, H + step] := by
  rw [descendLoop, if_pos (by linarith)]

lemma ascendLoop_start_above (endv step : ℚ) (hstep : 0 < step) (H : ℚ)
    (h : endv < H) : ascendLoop endv step hstep H = [H, H + step] := by
  rw [ascendLoop, if_pos (by linarith)]

lemma descendLoop_countP_eq_one (endv step : ℚ) (hstep : step < 0) :
    ∀ H, endv ≤ H →
      (descendLoop endv step hstep H).countP (fun x => decide (x < endv)) = 1 := by
  intro H hH
  induction H using descendLoop.induct endv step hstep with
  | case1 H h =>
    rw [descendLoop, if_pos h]
    simp [List.countP_cons, h, not_lt.mpr hH]
  | case2 H h ih =>
    rw [descendLoop, if_neg h, List.countP_cons]
    push_neg at h
    simp [not_lt.mpr hH, ih h]

lemma descendLoop_countP_pos (endv step : ℚ) (hstep : step < 0) (H : ℚ) :
    1 ≤ (descendLoop endv step hstep H).countP (fun x => decide (x < endv)) := by
  induction H using descendLoop.induct endv step hstep with
  | case1 H h =>
    rw [descendLoop, if_pos h]
    simp [List.countP_cons, h]
  | case2 H h ih =>
    rw [descendLoop, if_neg h, List.countP_cons]
    omega

lemma ascendLoop_countP_eq_one (endv step : ℚ) (hstep : 0 < step) :
    ∀ H, H ≤ endv →
      (ascendLoop endv step hstep H).countP (fun x => decide (endv < x)) = 1 := by
  intro H hH
  induction H using ascendLoop.induct endv step hstep with
  | case1 H h =>
    rw [ascendLoop, if_pos h]
    simp [List.countP_cons, h, not_lt.mpr hH]
  | case2 H h ih =>
    rw [ascendLoop, if_neg h, List.countP_cons]
    push_neg at h
    simp [not_lt.mpr hH, ih h]

lemma ascendLoop_countP_pos (endv step : ℚ) (hstep : 0 < step) (H : ℚ) :
    1 ≤ (ascendLoop endv step hstep H).countP (fun x => decide (endv < x)) := by
  induction H using ascendLoop.induct endv step hstep with
  | case1 H h =>
    rw [ascendLoop, if_pos h]
    simp [List.countP_cons, h]
  | case2 H h ih =>
    rw [ascendLoop, if_neg h, List.countP_cons]
    omega

lemma build_thresholds_main_run :
    build_thresholds 1100 695 (-25) =
      .ok [1100, 1075, 1050, 1025, 1000, 975, 950, 925, 900, 875, 850, 825,
        800, 775, 750, 725, 700, 675] := by
  rw [build_thresholds]
  norm_num
  repeat (rw [descendLoop]; norm_num)

/-- C2 counterexample: for start = 100, end = 695, step = -25 (start below
end), the generated sequence is [100, 75] and both of its values are
strictly below end, refuting the claim that the sequence always contains
exactly one value strictly below end. -/
theorem c2_exactly_one_below_counterexample :
    build_thresholds 100 695 (-25) = .ok [(100 : ℚ), 75] ∧
    ¬ (([(100 : ℚ), 75].countP fun x => decide (x < (695 : ℚ))) = 1) := by
  constructor
  · rw [build_thresholds]
    norm_num
    rw [descendLoop]
    norm_num
  · norm_num [List.countP_cons]

/-- C2 amended: for step < 0 the sequence starts at start, each element is
the previous plus step, at least one value is strictly below end; when
start is not already below end there is exactly one such value, and when
start is below end the loop stops immediately, emitting exactly start and
start + step, both strictly below end (so two values).  The symmetric
structure holds for step > 0 with values strictly above end.  The source
sweep 1100 down to 695 by -25 ends in 700, 675. -/
theorem c2_threshold_boundary_amended :
    (∀ start_kw end_kw step_kw : ℚ, step_kw < 0 → ∀ l,
      build_thresholds start_kw end_kw step_kw = .ok l →
      l.head? = some start_kw ∧
      l.Chain' (fun a b => b = a + step_kw) ∧
      1 ≤ l.countP (fun x => decide (x < end_kw)) ∧
      (end_kw ≤ start_kw →
        l.countP (fun x => decide (x < end_kw)) = 1) ∧
      (start_kw < end_kw → l = [start_kw, start_kw + step_kw] ∧
        l.countP (fun x => decide (x < end_kw)) = 2)) ∧
    (∀ start_kw end_kw step_kw : ℚ, 0 < step_kw → ∀ l,
      build_thresholds start_kw end_kw step_kw = .ok l →
      l.head? = some start_kw ∧
      l.Chain' (fun a b => b = a + step_kw) ∧
      1 ≤ l.countP (fun x => decide (end_kw < x)) ∧
      (start_kw ≤ end_kw →
        l.countP (fun x => decide (end_kw < x)) = 1) ∧
      (end_kw < start_kw → l = [start_kw, start_kw + step_kw] ∧
        l.countP (fun x => decide (end_kw < x)) = 2)) ∧
    build_thresholds 1100 695 (-25) =
      .ok [1100, 1075, 1050, 1025, 1000, 975, 950, 925, 900, 875, 850, 825,
        800, 775, 750, 725, 700, 675] := by
  refine ⟨?_, ?_, build_thresholds_main_run⟩
  · intro s e st hst l hok
    rw [build_thresholds, dif_neg (ne_of_lt hst), dif_pos hst] at hok
    have hl : l = descendLoop e st hst s := (Except.ok.inj hok).symm
    subst hl
    refine ⟨descendLoop_headq e st hst s, descendLoop_chain e st hst s,
      descendLoop_countP_pos e st hst s,
      fun h => descendLoop_countP_eq_one e st hst s h, fun h => ?_⟩
    have htwo := descendLoop_start_below e st hst s h
    rw [htwo]
    have h2 : s + st < e := by linarith
    refine ⟨rfl, ?_⟩
    simp [List.countP_cons, h, h2]
  · intro s e st hst l hok
    rw [build_thresholds, dif_neg (ne_of_gt hst),
      dif_neg (not_lt.mpr (le_of_lt hst))] at hok
    have hl : l = ascendLoop e st hst s := (Except.ok.inj hok).symm
    subst hl
    refine ⟨ascendLoop_headq e st hst s, ascendLoop_chain e st hst s,
      ascendLoop_countP_pos e st hst s,
      fun h => ascendLoop_countP_eq_one e st hst s h, fun h => ?_⟩
    have htwo := ascendLoop_start_above e st hst s h
    rw [htwo]
    have h2 : e < s + st := by linarith
    refine ⟨rfl, ?_⟩
    simp [List.countP_cons, h, h2]

/-- C2 witness: the amended theorem applied to the concrete source sweep
1100 down to 695 by -25, whose emitted list is computed explicitly. -/
theorem c2_threshold_boundary_witness :
    ([(1100 : ℚ), 1075, 1050, 1025, 1000, 975, 950, 925, 900, 875, 850, 825,
        800, 775, 750, 725, 700, 675].countP
      fun x => decide (x < (695 : ℚ))) = 1 :=
  (c2_threshold_boundary_amended.1 1100 695 (-25) (by norm_num) _
    c2_threshold_boundary_amended.2.2).2.2.2.1 (by norm_num)

/-- C6: build_thresholds fails with the invalid-step error exactly when
the step is zero, and for every nonzero step it returns a materialized
finite list (the loops terminate, which is the content of their
well-founded definitions). -/
theorem c6_invalid_step_iff :
    ∀ start_kw end_kw step_kw : ℚ,
      (build_thresholds start_kw end_kw step_kw = .error .invalidStep ↔
        step_kw = 0) ∧
      (step_kw ≠ 0 →
        ∃ l, build_thresholds start_kw end_kw step_kw = .ok l) := by
  intro s e st
  have hok : st ≠ 0 → ∃ l, build_thresholds s e st = .ok l := by
    intro hne
    rw [build_thresholds, dif_neg hne]
    by_cases hlt : st < 0
    · rw [dif_pos hlt]; exact ⟨_, rfl⟩
    · rw [dif_neg hlt]; exact ⟨_, rfl⟩
  refine ⟨⟨?_, ?_⟩, hok⟩
  · intro h
    by_contra hne
    rcases hok hne with ⟨l, hl⟩
    rw [hl] at h
    exact Except.noConfusion h
  · intro h
    subst h
    rw [build_thresholds]
    simp

/-- C6 witness: concrete instantiations, the zero step failing and the
source step succeeding. -/
theorem c6_invalid_step_witness :
    build_thresholds 1100 695 0 = .error .invalidStep ∧
    ∃ l, build_thresholds 1100 695 (-25) = .ok l :=
  ⟨(c6_invalid_step_iff 1100 695 0).1.mpr rfl,
    (c6_invalid_step_iff 1100 695 (-25)).2 (by norm_num)⟩

lemma mem_sweep_eval {α : Type} (spec : UnitSpec) (econ : EconomicsParams)
    (days : List (α × List ℚ)) (dt s e st : ℚ)
    (rows : List (SweepRow α)) (row : SweepRow α)
    (hok : compute_threshold_sweep_stats_highest days dt s e st spec econ =
      .ok rows) (hmem : row ∈ rows) :
    ∃ H, row = evalThreshold spec econ dt days H := by
  rw [compute_threshold_sweep_stats_highest] at hok
  cases hb : build_thresholds s e st with
  | error err => rw [hb] at hok; exact absurd hok (by simp [Except.map])
  | ok Hs =>
    rw [hb] at hok
    simp only [Except.map] at hok
    have : Hs.map (evalThreshold spec econ dt days) = rows :=
      Except.ok.inj hok
    rw [← this] at hmem
    rcases List.mem_map.mp hmem with ⟨H, _, hH⟩
    exact ⟨H, hH.symm⟩

lemma pyInt_intCast (k : ℤ) : pyInt (k : ℚ) = k := by
  rw [pyInt]
  split_ifs <;> simp

/-- Units formula as worded by the claim: the max of the two ceilings,
with the explicit zero and forced-one carve-outs. -/
def claimUnits (spec : UnitSpec) (hp he : ℚ) : ℤ :=
  if hp = 0 ∧ he = 0 then 0
  else if max ⌈hp / spec.max_power_kW⌉ ⌈he / spec.nameplate_energy_kWh⌉ = 0
    then 1
  else max ⌈hp / spec.max_power_kW⌉ ⌈he / spec.nameplate_energy_kWh⌉

lemma unitsNeededCalc_eq_claim (spec : UnitSpec) (hp he : ℚ)
    (h1 : 0 ≤ hp) (h2 : 0 ≤ he) (hE : 0 < spec.nameplate_energy_kWh) :
    unitsNeededCalc spec hp he = claimUnits spec hp he := by
  by_cases hz : hp = 0 ∧ he = 0
  · obtain ⟨hz1, hz2⟩ := hz
    subst hz1
    subst hz2
    simp [unitsNeededCalc, claimUnits, unitsPower, unitsEnergy, hE]
  · have hor : 0 < hp ∨ 0 < he := by
      rcases not_and_or.mp hz with h | h
      · exact .inl (lt_of_le_of_ne h1 (Ne.symm h))
      · exact .inr (lt_of_le_of_ne h2 (Ne.symm h))
    rw [unitsNeededCalc, claimUnits, if_neg hz]
    simp only [unitsPower, unitsEnergy, if_pos hE]
    by_cases hu :
        max ⌈hp / spec.max_power_kW⌉ ⌈he / spec.nameplate_energy_kWh⌉ = 0
    · rw [if_pos ⟨hu, hor⟩, if_pos hu]
    · rw [if_neg fun hc => hu hc.1, if_neg hu]

/-- C3: on every row of the sweep, for positive unit ratings, the units
needed equal the max of the power and energy ceilings, 0 when both worst
cases are exactly 0, forced to 1 when that max is 0 while some shaving
occurred (the claimUnits formula). -/
theorem c3_units_needed {α : Type} (spec : UnitSpec) (econ : EconomicsParams)
    (days : List (α × List ℚ)) (dt s e st : ℚ)
    (rows : List (SweepRow α)) (row : SweepRow α)
    (hok : compute_threshold_sweep_stats_highest days dt s e st spec econ =
      .ok rows) (hmem : row ∈ rows)
    (hE : 0 < spec.nameplate_energy_kWh) :
    row.min_units_required =
      claimUnits spec row.highest_peak_shaved_kW row.highest_energy_kWh := by
  obtain ⟨H, rfl⟩ := mem_sweep_eval spec econ days dt s e st rows row hok hmem
  have hu : (evalThreshold spec econ dt days H).min_units_required =
      unitsNeededCalc spec (foldDays dt H days).highest_peak
        (foldDays dt H days).highest_energy := rfl
  have hhp : (evalThreshold spec econ dt days H).highest_peak_shaved_kW =
      (foldDays dt H days).highest_peak := rfl
  have hhe : (evalThreshold spec econ dt days H).highest_energy_kWh =
      (foldDays dt H days).highest_energy := rfl
  rw [hu, hhp, hhe]
  exact unitsNeededCalc_eq_claim spec _ _ (foldDays_peak_nonneg dt H days)
    (foldDays_energy_nonneg dt H days) hE

lemma sweep_run_small :
    compute_threshold_sweep_stats_highest [((0 : ℕ), [(300 : ℚ)])] (1 / 2)
        200 200 (-50) defaultUnit defaultEcon =
      .ok [evalThreshold defaultUnit defaultEcon (1 / 2)
            [((0 : ℕ), [(300 : ℚ)])] 200,
          evalThreshold defaultUnit defaultEcon (1 / 2)
            [((0 : ℕ), [(300 : ℚ)])] 150] := by
  rw [compute_threshold_sweep_stats_highest, build_thresholds]
  norm_num
  rw [descendLoop]
  norm_num [Except.map]

/-- C3 witness: the units formula instantiated on the first row of a
concrete two-threshold sweep over one day of demand 300. -/
theorem c3_units_needed_witness :
    (evalThreshold defaultUnit defaultEcon (1 / 2)
        [((0 : ℕ), [(300 : ℚ)])] 200).min_units_required =
      claimUnits defaultUnit
        (evalThreshold defaultUnit defaultEcon (1 / 2)
          [((0 : ℕ), [(300 : ℚ)])] 200).highest_peak_shaved_kW
        (evalThreshold defaultUnit defaultEcon (1 / 2)
          [((0 : ℕ), [(300 : ℚ)])] 200).highest_energy_kWh :=
  c3_units_needed defaultUnit defaultEcon [((0 : ℕ), [(300 : ℚ)])]
    (1 / 2) 200 200 (-50) _ _ sweep_run_small (List.mem_cons_self _ _)
    (by norm_num [defaultUnit])

/-- C4: on every row of the sweep, with an integer nameplate rating, the
minimum capacity is units times nameplate (as an integer count of kWh);
payback and efficiency are non-null exactly when the worst-case peak and
the capacity are both positive, and then carry exactly the claimed
formulas; otherwise both are null. -/
theorem c4_capacity_and_economics {α : Type} (spec : UnitSpec)
    (econ : EconomicsParams) (days : List (α × List ℚ)) (dt s e st : ℚ)
    (rows : List (SweepRow α)) (row : SweepRow α)
    (hok : compute_threshold_sweep_stats_highest days dt s e st spec econ =
      .ok rows) (hmem : row ∈ rows)
    (ne_kWh : ℤ) (hne : spec.nameplate_energy_kWh = (ne_kWh : ℚ)) :
    row.min_capacity_kWh = row.min_units_required * ne_kWh ∧
    (row.payback_years.isSome ↔
      0 < row.highest_peak_shaved_kW ∧ 0 < row.min_capacity_kWh) ∧
    (row.efficiency.isSome ↔
      0 < row.highest_peak_shaved_kW ∧ 0 < row.min_capacity_kWh) ∧
    (0 < row.highest_peak_shaved_kW ∧ 0 < row.min_capacity_kWh →
      row.payback_years = some
        ((econ.capex_per_kWh * (row.min_capacity_kWh : ℚ)) /
          (row.highest_peak_shaved_kW * econ.demand_tariff_per_kW *
            (econ.billing_periods_per_year : ℚ))) ∧
      row.efficiency = some
        (row.highest_peak_shaved_kW / (row.min_capacity_kWh : ℚ))) := by
  obtain ⟨H, rfl⟩ := mem_sweep_eval spec econ days dt s e st rows row hok hmem
  have hcap : (evalThreshold spec econ dt days H).min_capacity_kWh =
      pyInt (((evalThreshold spec econ dt days H).min_units_required : ℚ) *
        spec.nameplate_energy_kWh) := rfl
  have hpb : (evalThreshold spec econ dt days H).payback_years =
      if 0 < (evalThreshold spec econ dt days H).highest_peak_shaved_kW ∧
          0 < (evalThreshold spec econ dt days H).min_capacity_kWh then
        some ((econ.capex_per_kWh *
            ((evalThreshold spec econ dt days H).min_capacity_kWh : ℚ)) /
          ((evalThreshold spec econ dt days H).highest_peak_shaved_kW *
            econ.demand_tariff_per_kW *
            (econ.billing_periods_per_year : ℚ)))
      else none := rfl
  have heff : (evalThreshold spec econ dt days H).efficiency =
      if 0 < (evalThreshold spec econ dt days H).highest_peak_shaved_kW ∧
          0 < (evalThreshold spec econ dt days H).min_capacity_kWh then
        some ((evalThreshold spec econ dt days H).highest_peak_shaved_kW /
          ((evalThreshold spec econ dt days H).min_capacity_kWh : ℚ))
      else none := rfl
  refine ⟨?_, ?_, ?_, ?_⟩
  · rw [hcap, hne, ← Int.cast_mul, pyInt_intCast]
  · rw [hpb]
    by_cases hc : 0 < (evalThreshold spec econ dt days H).highest_peak_shaved_kW ∧
        0 < (evalThreshold spec econ dt days H).min_capacity_kWh
    · simp [hc]
    · simp [hc]
  · rw [heff]
    by_cases hc : 0 < (evalThreshold spec econ dt days H).highest_peak_shaved_kW ∧
        0 < (evalThreshold spec econ dt days H).min_capacity_kWh
    · simp [hc]
    · simp [hc]
  · intro hc
    rw [hpb, heff, if_pos hc, if_pos hc]
    exact ⟨rfl, rfl⟩

/-- C4 witness: the capacity and economics clauses instantiated on the
first row of the concrete two-threshold sweep, where the peak is 100 and
the capacity 233. -/
theorem c4_capacity_and_economics_witness :
    (evalThreshold defaultUnit defaultEcon (1 / 2)
        [((0 : ℕ), [(300 : ℚ)])] 200).min_capacity_kWh =
      (evalThreshold defaultUnit defaultEcon (1 / 2)
        [((0 : ℕ), [(300 : ℚ)])] 200).min_units_required * 233 :=
  (c4_capacity_and_economics defaultUnit defaultEcon [((0 : ℕ), [(300 : ℚ)])]
    (1 / 2) 200 200 (-50) _ _ sweep_run_small (List.mem_cons_self _ _)
    233 (by norm_num [defaultUnit])).1

lemma fitsUnit_mono (spec : UnitSpec) (hp he : ℚ)
    (hP : 0 ≤ spec.max_power_kW) (hE : 0 ≤ spec.nameplate_energy_kWh)
    {u u' : ℕ} (huu : u ≤ u') (hfit : fitsUnit spec hp he u = true) :
    fitsUnit spec hp he u' = true := by
  rw [fitsUnit, decide_eq_true_iff] at hfit ⊢
  have hc : ((u : ℚ)) ≤ (u' : ℚ) := Nat.cast_le.mpr huu
  exact ⟨le_trans hfit.1 (mul_le_mul_of_nonneg_right hc hP),
    le_trans hfit.2 (mul_le_mul_of_nonneg_right hc hE)⟩

/-- C9: on every row of the sweep, each fit flag for stacks of 1 to 4
units is true exactly when the worst-case peak and energy both fit under
the stacked ratings, and for nonnegative ratings the fit predicate is
monotone in the stack size. -/
theorem c9_fit_flags {α : Type} (spec : UnitSpec) (econ : EconomicsParams)
    (days : List (α × List ℚ)) (dt s e st : ℚ)
    (rows : List (SweepRow α)) (row : SweepRow α)
    (hok : compute_threshold_sweep_stats_highest days dt s e st spec econ =
      .ok rows) (hmem : row ∈ rows)
    (hP : 0 ≤ spec.max_power_kW) (hE : 0 ≤ spec.nameplate_energy_kWh) :
    (row.fits_1x = true ↔
      row.highest_peak_shaved_kW ≤ 1 * spec.max_power_kW ∧
      row.highest_energy_kWh ≤ 1 * spec.nameplate_energy_kWh) ∧
    (row.fits_2x = true ↔
      row.highest_peak_shaved_kW ≤ 2 * spec.max_power_kW ∧
      row.highest_energy_kWh ≤ 2 * spec.nameplate_energy_kWh) ∧
    (row.fits_3x = true ↔
      row.highest_peak_shaved_kW ≤ 3 * spec.max_power_kW ∧
      row.highest_energy_kWh ≤ 3 * spec.nameplate_energy_kWh) ∧
    (row.fits_4x = true ↔
      row.highest_peak_shaved_kW ≤ 4 * spec.max_power_kW ∧
      row.highest_energy_kWh ≤ 4 * spec.nameplate_energy_kWh) ∧
    (∀ u u' : ℕ, u ≤ u' →
      fitsUnit spec row.highest_peak_shaved_kW row.highest_energy_kWh u =
        true →
      fitsUnit spec row.highest_peak_shaved_kW row.highest_energy_kWh u' =
        true) := by
  obtain ⟨H, rfl⟩ := mem_sweep_eval spec econ days dt s e st rows row hok hmem
  have h1 : (evalThreshold spec econ dt days H).fits_1x =
      fitsUnit spec (evalThreshold spec econ dt days H).highest_peak_shaved_kW
        (evalThreshold spec econ dt days H).highest_energy_kWh 1 := rfl
  have h2 : (evalThreshold spec econ dt days H).fits_2x =
      fitsUnit spec (evalThreshold spec econ dt days H).highest_peak_shaved_kW
        (evalThreshold spec econ dt days H).highest_energy_kWh 2 := rfl
  have h3 : (evalThreshold spec econ dt days H).fits_3x =
      fitsUnit spec (evalThreshold spec econ dt days H).highest_peak_shaved_kW
        (evalThreshold spec econ dt days H).highest_energy_kWh 3 := rfl
  have h4 : (evalThreshold spec econ dt days H).fits_4x =
      fitsUnit spec (evalThreshold spec econ dt days H).highest_peak_shaved_kW
        (evalThreshold spec econ dt days H).highest_energy_kWh 4 := rfl
  refine ⟨?_, ?_, ?_, ?_, ?_⟩
  · rw [h1, fitsUnit, decide_eq_true_iff]; norm_num
  · rw [h2, fitsUnit, decide_eq_true_iff]; norm_num
  · rw [h3, fitsUnit, decide_eq_true_iff]; norm_num
  · rw [h4, fitsUnit, decide_eq_true_iff]; norm_num
  · intro u u' huu hfit
    exact fitsUnit_mono spec _ _ hP hE huu hfit

/-- C9 witness: the fit-flag characterization for one unit instantiated on
the first row of the concrete two-threshold sweep. -/
theorem c9_fit_flags_witness :
    (evalThreshold defaultUnit defaultEcon (1 / 2)
        [((0 : ℕ), [(300 : ℚ)])] 200).fits_1x = true ↔
      (evalThreshold defaultUnit defaultEcon (1 / 2)
        [((0 : ℕ), [(300 : ℚ)])] 200).highest_peak_shaved_kW ≤
          1 * defaultUnit.max_power_kW ∧
      (evalThreshold defaultUnit defaultEcon (1 / 2)
        [((0 : ℕ), [(300 : ℚ)])] 200).highest_energy_kWh ≤
          1 * defaultUnit.nameplate_energy_kWh :=
  (c9_fit_flags defaultUnit defaultEcon [((0 : ℕ), [(300 : ℚ)])]
    (1 / 2) 200 200 (-50) _ _ sweep_run_small (List.mem_cons_self _ _)
    (by norm_num [defaultUnit]) (by norm_num [defaultUnit])).1

lemma unitsPower_le_succ (spec : UnitSpec) (hp1 hp2 : ℚ)
    (h21 : hp2 ≤ hp1 + epsTol) (hPe : epsTol ≤ spec.max_power_kW) :
    unitsPower spec hp2 ≤ unitsPower spec hp1 + 1 := by
  have hP0 : 0 < spec.max_power_kW := lt_of_lt_of_le epsTol_pos hPe
  rw [unitsPower, unitsPower]
  refine Int.ceil_le.mpr ?_
  have hd : hp2 / spec.max_power_kW ≤
      hp1 / spec.max_power_kW + epsTol / spec.max_power_kW := by
    rw [← add_div]
    exact (div_le_div_iff_of_pos_right hP0).mpr h21
  have he1 : epsTol / spec.max_power_kW ≤ 1 :=
    (div_le_one hP0).mpr hPe
  have hc := Int.le_ceil (hp1 / spec.max_power_kW)
  push_cast
  linarith

lemma unitsEnergy_le_succ (spec : UnitSpec) (he1 he2 : ℚ)
    (h21 : he2 ≤ he1 + epsTol) (hEe : epsTol ≤ spec.nameplate_energy_kWh) :
    unitsEnergy spec he2 ≤ unitsEnergy spec he1 + 1 := by
  have hE0 : 0 < spec.nameplate_energy_kWh := lt_of_lt_of_le epsTol_pos hEe
  rw [unitsEnergy, unitsEnergy, if_pos hE0, if_pos hE0]
  refine Int.ceil_le.mpr ?_
  have hd : he2 / spec.nameplate_energy_kWh ≤
      he1 / spec.nameplate_energy_kWh + epsTol / spec.nameplate_energy_kWh := by
    rw [← add_div]
    exact (div_le_div_iff_of_pos_right hE0).mpr h21
  have he1' : epsTol / spec.nameplate_energy_kWh ≤ 1 :=
    (div_le_one hE0).mpr hEe
  have hc := Int.le_ceil (he1 / spec.nameplate_energy_kWh)
  push_cast
  linarith

lemma unitsNeededCalc_le_succ (spec : UnitSpec) (hp1 he1 hp2 he2 : ℚ)
    (h1 : 0 ≤ hp1)
    (hp21 : hp2 ≤ hp1 + epsTol) (he21 : he2 ≤ he1 + epsTol)
    (hPe : epsTol ≤ spec.max_power_kW)
    (hEe : epsTol ≤ spec.nameplate_energy_kWh) :
    unitsNeededCalc spec hp2 he2 ≤ unitsNeededCalc spec hp1 he1 + 1 := by
  have hP0 : 0 < spec.max_power_kW := lt_of_lt_of_le epsTol_pos hPe
  have hup : unitsPower spec hp2 ≤ unitsPower spec hp1 + 1 :=
    unitsPower_le_succ spec hp1 hp2 hp21 hPe
  have hue : unitsEnergy spec he2 ≤ unitsEnergy spec he1 + 1 :=
    unitsEnergy_le_succ spec he1 he2 he21 hEe
  have hup0 : 0 ≤ unitsPower spec hp1 :=
    Int.ceil_nonneg (div_nonneg h1 (le_of_lt hP0))
  have hmax1_0 : 0 ≤ max (unitsPower spec hp1) (unitsEnergy spec he1) :=
    le_trans hup0 (le_max_left _ _)
  have hA2 : unitsPower spec hp2 ≤
      max (unitsPower spec hp1) (unitsEnergy spec he1) + 1 :=
    le_trans hup (add_le_add_right (le_max_left _ _) 1)
  have hB2 : unitsEnergy spec he2 ≤
      max (unitsPower spec hp1) (unitsEnergy spec he1) + 1 :=
    le_trans hue (add_le_add_right (le_max_right _ _) 1)
  have hmax2 : max (unitsPower spec hp2) (unitsEnergy spec he2) ≤
      max (unitsPower spec hp1) (unitsEnergy spec he1) + 1 :=
    max_le hA2 hB2
  simp only [unitsNeededCalc]
  by_cases hA : max (unitsPower spec hp2) (unitsEnergy spec he2) = 0 ∧
      (0 < hp2 ∨ 0 < he2)
  · rw [if_pos hA]
    by_cases hB : max (unitsPower spec hp1) (unitsEnergy spec he1) = 0 ∧
        (0 < hp1 ∨ 0 < he1)
    · rw [if_pos hB]; norm_num
    · rw [if_neg hB]; linarith
  · rw [if_neg hA]
    by_cases hB : max (unitsPower spec hp1) (unitsEnergy spec he1) = 0 ∧
        (0 < hp1 ∨ 0 < he1)
    · rw [if_pos hB]
      have := hB.1
      linarith
    · rw [if_neg hB]; linarith

/-- C5 amended: for a nonnegative interval duration and thresholds
H1 at most H2, the row for H2 can exceed the row for H1 only within the
epsilon tolerance of the per-day maximum updates: highest_energy and
highest_peak by at most epsTol, and (for unit ratings at least epsTol)
units_needed by at most one unit.  Exact non-increase is what the
tolerance can break, as the counterexample shows. -/
theorem c5_monotonicity_amended {α : Type} (spec : UnitSpec)
    (econ : EconomicsParams) (dt : ℚ) (days : List (α × List ℚ))
    (H1 H2 : ℚ) (hdt : 0 ≤ dt) (h12 : H1 ≤ H2) :
    (evalThreshold spec econ dt days H2).highest_energy_kWh ≤
      (evalThreshold spec econ dt days H1).highest_energy_kWh + epsTol ∧
    (evalThreshold spec econ dt days H2).highest_peak_shaved_kW ≤
      (evalThreshold spec econ dt days H1).highest_peak_shaved_kW + epsTol ∧
    (epsTol ≤ spec.max_power_kW → epsTol ≤ spec.nameplate_energy_kWh →
      (evalThreshold spec econ dt days H2).min_units_required ≤
        (evalThreshold spec econ dt days H1).min_units_required + 1) := by
  have hE1 : (evalThreshold spec econ dt days H1).highest_energy_kWh =
      (foldDays dt H1 days).highest_energy := rfl
  have hE2 : (evalThreshold spec econ dt days H2).highest_energy_kWh =
      (foldDays dt H2 days).highest_energy := rfl
  have hP1 : (evalThreshold spec econ dt days H1).highest_peak_shaved_kW =
      (foldDays dt H1 days).highest_peak := rfl
  have hP2 : (evalThreshold spec econ dt days H2).highest_peak_shaved_kW =
      (foldDays dt H2 days).highest_peak := rfl
  have hU1 : (evalThreshold spec econ dt days H1).min_units_required =
      unitsNeededCalc spec (foldDays dt H1 days).highest_peak
        (foldDays dt H1 days).highest_energy := rfl
  have hU2 : (evalThreshold spec econ dt days H2).min_units_required =
      unitsNeededCalc spec (foldDays dt H2 days).highest_peak
        (foldDays dt H2 days).highest_energy := rfl
  have henergy : (foldDays dt H2 days).highest_energy ≤
      (foldDays dt H1 days).highest_energy + epsTol :=
    le_trans (foldDays_energy_le_max dt H2 days)
      (le_trans (maxEnergyOverDays_anti dt H1 H2 hdt h12 days)
        (max_le_foldDays_energy_add dt H1 days))
  have hpeak : (foldDays dt H2 days).highest_peak ≤
      (foldDays dt H1 days).highest_peak + epsTol :=
    le_trans (foldDays_peak_le_max dt H2 days)
      (le_trans (maxPeakOverDays_anti H1 H2 h12 days)
        (max_le_foldDays_peak_add dt H1 days))
  refine ⟨?_, ?_, ?_⟩
  · rw [hE1, hE2]; exact henergy
  · rw [hP1, hP2]; exact hpeak
  · intro hPe hEe
    rw [hU1, hU2]
    exact unitsNeededCalc_le_succ spec _ _ _ _
      (foldDays_peak_nonneg dt H1 days) hpeak henergy hPe hEe

/-- C5 counterexample: a sweep whose thresholds include 0 and epsTol / 2
and two days whose per-day energies straddle the tolerance.  At the larger
threshold the second day beats the smaller running maximum by more than
epsTol and is recorded, at the smaller threshold it does not, so
highest_energy is strictly larger for the larger threshold, refuting the
claimed non-increase (days: demands [1, 1] and [2 + 3 epsTol / 4],
dt = 1). -/
theorem c5_monotonicity_counterexample :
    build_thresholds (epsTol / 2) 0 (-(epsTol / 2)) =
      .ok [epsTol / 2, 0, -(epsTol / 2)] ∧
    (0 : ℚ) < epsTol / 2 ∧
    (evalThreshold defaultUnit defaultEcon 1
        [((0 : ℕ), [1, 1]), ((1 : ℕ), [2 + 3 * epsTol / 4])]
        0).highest_energy_kWh <
      (evalThreshold defaultUnit defaultEcon 1
        [((0 : ℕ), [1, 1]), ((1 : ℕ), [2 + 3 * epsTol / 4])]
        (epsTol / 2)).highest_energy_kWh := by
  refine ⟨?_, by norm_num [epsTol], ?_⟩
  · rw [build_thresholds]
    norm_num [epsTol]
    rw [descendLoop]
    norm_num
    rw [descendLoop]
    norm_num
  · have h1 : (evalThreshold defaultUnit defaultEcon 1
        [((0 : ℕ), [1, 1]), ((1 : ℕ), [2 + 3 * epsTol / 4])]
        0).highest_energy_kWh =
        (foldDays 1 0
          [((0 : ℕ), [1, 1]), ((1 : ℕ), [2 + 3 * epsTol / 4])]).highest_energy :=
      rfl
    have h2 : (evalThreshold defaultUnit defaultEcon 1
        [((0 : ℕ), [1, 1]), ((1 : ℕ), [2 + 3 * epsTol / 4])]
        (epsTol / 2)).highest_energy_kWh =
        (foldDays 1 (epsTol / 2)
          [((0 : ℕ), [1, 1]), ((1 : ℕ), [2 + 3 * epsTol / 4])]).highest_energy :=
      rfl
    rw [h1, h2, foldDays, foldDays]
    simp only [List.foldl_cons, List.foldl_nil, stepDay]
    norm_num [dayEnergy, dayPeak, shaveList, max_def, epsTol]

/-- C5 witness: the amended bounds instantiated on the concrete one-day
series at thresholds 200 and 250 with the source unit ratings. -/
theorem c5_monotonicity_witness :
    (evalThreshold defaultUnit defaultEcon (1 / 2)
        [((0 : ℕ), [(300 : ℚ)])] 250).min_units_required ≤
      (evalThreshold defaultUnit defaultEcon (1 / 2)
        [((0 : ℕ), [(300 : ℚ)])] 200).min_units_required + 1 :=
  (c5_monotonicity_amended defaultUnit defaultEcon (1 / 2)
    [((0 : ℕ), [(300 : ℚ)])] 200 250 (by norm_num) (by norm_num)).2.2
    (by norm_num [defaultUnit, epsTol]) (by norm_num [defaultUnit, epsTol])

lemma loadDays_eq_nil_iff (sorted : List Row) (sh eh : ℕ) :
    loadDays sorted sh eh = [] ↔ ∀ r ∈ sorted, inWindow sh eh r = false := by
  rw [loadDays, List.filterMap_eq_nil_iff]
  constructor
  · intro h r hr
    cases hb : inWindow sh eh r with
    | false => rfl
    | true =>
      exfalso
      have hd : r.start_time.date ∈
          (sorted.map fun r => r.start_time.date).dedup :=
        List.mem_dedup.mpr (List.mem_map.mpr ⟨r, hr, rfl⟩)
      have hnone := h _ hd
      by_cases hg : dayGroup sorted sh eh r.start_time.date = []
      · have hrg : r ∈ dayGroup sorted sh eh r.start_time.date := by
          rw [dayGroup]
          refine List.mem_filter.mpr ⟨List.mem_filter.mpr ⟨hr, ?_⟩, hb⟩
          simp
        rw [hg] at hrg
        exact absurd hrg (List.not_mem_nil r)
      · rw [if_neg hg] at hnone
        exact Option.noConfusion hnone
  · intro h d _
    have hg : dayGroup sorted sh eh d = [] := by
      rw [dayGroup]
      refine List.filter_eq_nil_iff.mpr ?_
      intro r hrmem
      have hr : r ∈ sorted := (List.mem_filter.mp hrmem).1
      rw [h r hr]
      simp
    rw [if_pos hg]

/-- C7: load_month fails with noData exactly when no row of the dataset
matches the month selector; it fails with noQualifyingDays exactly when
matching rows exist but none falls inside the analysis window (every date
group is emptied); an ok result is never empty; and when a matching row
inside the window exists the result is ok and nonempty. -/
theorem c7_loader_errors (rows : List Row) (year month sh eh : ℕ) :
    (load_month rows year month sh eh = .error .noData ↔
      monthRows rows year month = []) ∧
    (load_month rows year month sh eh = .error .noQualifyingDays ↔
      monthRows rows year month ≠ [] ∧
        ∀ r ∈ monthRows rows year month,
          ¬(sh ≤ r.start_time.hour ∧ r.start_time.hour < eh)) ∧
    (∀ l, load_month rows year month sh eh = .ok l → l ≠ []) ∧
    ((monthRows rows year month ≠ [] ∧
        ∃ r ∈ monthRows rows year month,
          sh ≤ r.start_time.hour ∧ r.start_time.hour < eh) →
      ∃ l, load_month rows year month sh eh = .ok l ∧ l ≠ []) := by
  by_cases hdfm : monthRows rows year month = []
  · have hlm : load_month rows year month sh eh = .error .noData := by
      simp only [load_month, if_pos hdfm]
    refine ⟨?_, ?_, ?_, ?_⟩
    · simp [hlm, hdfm]
    · rw [hlm]
      simp [hdfm]
    · intro l hl
      rw [hlm] at hl
      exact absurd hl (by simp)
    · rintro ⟨hne, -⟩
      exact absurd hdfm hne
  · by_cases hdays :
        loadDays (List.insertionSort rowLe (monthRows rows year month))
          sh eh = []
    · have hlm : load_month rows year month sh eh =
          .error .noQualifyingDays := by
        simp only [load_month, if_neg hdfm, if_pos hdays]
      have hwin : ∀ r ∈ monthRows rows year month,
          ¬(sh ≤ r.start_time.hour ∧ r.start_time.hour < eh) := by
        intro r hr
        have hr' : r ∈ List.insertionSort rowLe (monthRows rows year month) :=
          (List.mem_insertionSort rowLe).mpr hr
        have hf := (loadDays_eq_nil_iff _ sh eh).mp hdays r hr'
        simp only [inWindow] at hf
        exact of_decide_eq_false hf
      refine ⟨?_, ?_, ?_, ?_⟩
      · rw [hlm]
        simp [hdfm]
      · rw [hlm]
        exact ⟨fun _ => ⟨hdfm, hwin⟩, fun _ => rfl⟩
      · intro l hl
        rw [hlm] at hl
        exact absurd hl (by simp)
      · rintro ⟨-, r, hr, hrw⟩
        exact absurd hrw (hwin r hr)
    · have hlm : load_month rows year month sh eh =
          .ok (loadDays (List.insertionSort rowLe (monthRows rows year month))
            sh eh) := by
        simp only [load_month, if_neg hdfm, if_neg hdays]
      refine ⟨?_, ?_, ?_, ?_⟩
      · rw [hlm]
        simp [hdfm]
      · rw [hlm]
        constructor
        · intro h
          exact absurd h (by simp)
        · rintro ⟨-, hwin⟩
          exfalso
          apply hdays
          refine (loadDays_eq_nil_iff _ sh eh).mpr fun r hr => ?_
          have hr' : r ∈ monthRows rows year month :=
            (List.mem_insertionSort rowLe).mp hr
          simp only [inWindow]
          exact decide_eq_false (hwin r hr')
      · intro l hl
        rw [hlm] at hl
        have hld := Except.ok.inj hl
        rw [← hld]
        exact hdays
      · intro _
        exact ⟨_, hlm, hdays⟩

/-- C7 witness: a one-row dataset for June 2025 queried with a selector
for January 2024 matches zero rows, so load_month fails with noData. -/
theorem c7_loader_errors_witness :
    load_month [⟨⟨2025, 6, 1, 15, 0⟩, 5⟩] 2024 1 14 22 =
      .error .noData :=
  (c7_loader_errors [⟨⟨2025, 6, 1, 15, 0⟩, 5⟩] 2024 1 14 22).1.mpr rfl

lemma mem_loadDays {sorted : List Row} {sh eh : ℕ} {ds : DaySeries}
    (h : ds ∈ loadDays sorted sh eh) :
    ∃ d, dayGroup sorted sh eh d ≠ [] ∧
      ds = daySeriesOf (dayGroup sorted sh eh d) d := by
  rw [loadDays] at h
  rcases List.mem_filterMap.mp h with ⟨d, _, hsome⟩
  by_cases hg : dayGroup sorted sh eh d = []
  · rw [if_pos hg] at hsome
    exact Option.noConfusion hsome
  · rw [if_neg hg] at hsome
    exact ⟨d, hg, (Option.some_inj.mp hsome).symm⟩

lemma load_month_mem_spec (rows : List Row) (year month sh eh : ℕ)
    (dl : List DaySeries) (hok : load_month rows year month sh eh = .ok dl)
    (ds : DaySeries) (hds : ds ∈ dl) :
    ds.demand ≠ [] ∧ ds.demand.length = ds.labels.length ∧
    ∃ g2 : List Row, g2 ≠ [] ∧
      (∀ r ∈ g2, r ∈ rows ∧ r.start_time.date = ds.date ∧
        sh ≤ r.start_time.hour ∧ r.start_time.hour < eh) ∧
      List.Pairwise rowLe g2 ∧
      ds.demand = g2.map (·.kw_import) ∧
      ds.labels = g2.map fun r => (r.start_time.hour, r.start_time.minute) := by
  simp only [load_month] at hok
  by_cases hdfm : monthRows rows year month = []
  · rw [if_pos hdfm] at hok
    exact absurd hok (by simp)
  · rw [if_neg hdfm] at hok
    by_cases hdays :
        loadDays (List.insertionSort rowLe (monthRows rows year month))
          sh eh = []
    · rw [if_pos hdays] at hok
      exact absurd hok (by simp)
    · rw [if_neg hdays] at hok
      have hdl := Except.ok.inj hok
      rw [← hdl] at hds
      rcases mem_loadDays hds with ⟨d, hg, hdseq⟩
      subst hdseq
      refine ⟨?_, ?_,
        dayGroup (List.insertionSort rowLe (monthRows rows year month))
          sh eh d, hg, ?_, ?_, rfl, rfl⟩
      · simpa [daySeriesOf] using hg
      · simp [daySeriesOf]
      · intro r hr
        have h1 := List.mem_filter.mp hr
        have h2 := List.mem_filter.mp h1.1
        have hwin : inWindow sh eh r = true := h1.2
        simp only [inWindow, decide_eq_true_eq] at hwin
        refine ⟨?_, ?_, hwin.1, hwin.2⟩
        · have hmr : r ∈ monthRows rows year month :=
            (List.mem_insertionSort rowLe).mp h2.1
          exact (List.mem_filter.mp hmr).1
        · have hdate : r.start_time.date = d := of_decide_eq_true h2.2
          simpa [daySeriesOf] using hdate
      · have hsorted :
            List.Pairwise rowLe
              (List.insertionSort rowLe (monthRows rows year month)) :=
          List.sorted_insertionSort rowLe _
        exact hsorted.sublist
          ((List.filter_sublist _).trans (List.filter_sublist _))

lemma mem_loadMonthsConcat (rows : List Row) (sh eh : ℕ) :
    ∀ (sels : List (ℕ × ℕ)) (l0 : List DaySeries),
      loadMonthsConcat rows sh eh sels = .ok l0 → ∀ ds ∈ l0,
        ∃ y m dl, load_month rows y m sh eh = .ok dl ∧ ds ∈ dl
  | [], l0, hok, ds, hds => by
    rw [loadMonthsConcat] at hok
    have hl := Except.ok.inj hok
    rw [← hl] at hds
    exact absurd hds (List.not_mem_nil ds)
  | (y, m) :: rest, l0, hok, ds, hds => by
    rw [loadMonthsConcat] at hok
    cases h1 : load_month rows y m sh eh with
    | error e =>
      rw [h1] at hok
      exact Except.noConfusion hok
    | ok d =>
      rw [h1] at hok
      cases h2 : loadMonthsConcat rows sh eh rest with
      | error e =>
        rw [h2] at hok
        exact Except.noConfusion hok
      | ok r =>
        rw [h2] at hok
        have hl := Except.ok.inj hok
        rw [← hl] at hds
        rcases List.mem_append.mp hds with hmem | hmem
        · exact ⟨y, m, d, h1, hmem⟩
        · exact mem_loadMonthsConcat rows sh eh rest r h2 ds hmem

/-- C8: every day series returned by load_months is nonempty, has demand
and labels of equal length, and is the image of a nonempty chronologically
sorted list of dataset rows all sharing its calendar date with hours
inside the half-open analysis window; and the combined output is sorted
ascending by date (so no later-month date precedes an earlier-month one). -/
theorem c8_day_series_invariants (rows : List Row) (sels : List (ℕ × ℕ))
    (sh eh : ℕ) (l : List DaySeries)
    (hok : load_months rows sels sh eh = .ok l) :
    List.Pairwise daySeriesLe l ∧
    ∀ ds ∈ l, ds.demand ≠ [] ∧ ds.demand.length = ds.labels.length ∧
      ∃ g2 : List Row, g2 ≠ [] ∧
        (∀ r ∈ g2, r ∈ rows ∧ r.start_time.date = ds.date ∧
          sh ≤ r.start_time.hour ∧ r.start_time.hour < eh) ∧
        List.Pairwise rowLe g2 ∧
        ds.demand = g2.map (·.kw_import) ∧
        ds.labels = g2.map fun r => (r.start_time.hour, r.start_time.minute) := by
  rw [load_months] at hok
  cases h0 : loadMonthsConcat rows sh eh sels with
  | error e =>
    rw [h0] at hok
    exact absurd hok (by simp [Except.map])
  | ok l0 =>
    rw [h0] at hok
    simp only [Except.map] at hok
    have hl : l = List.insertionSort daySeriesLe l0 :=
      (Except.ok.inj hok).symm
    subst hl
    refine ⟨List.sorted_insertionSort daySeriesLe l0, ?_⟩
    intro ds hds
    have hds0 : ds ∈ l0 := (List.mem_insertionSort daySeriesLe).mp hds
    rcases mem_loadMonthsConcat rows sh eh sels l0 h0 ds hds0 with
      ⟨y, m, dl, hlm, hmem⟩
    exact load_month_mem_spec rows y m sh eh dl hlm ds hmem

/-- C8 witness: two readings in May and June 2025 loaded through two
selectors produce the two day series sorted ascending by date. -/
theorem c8_day_series_invariants_witness :
    List.Pairwise daySeriesLe
      [⟨⟨2025, 5, 2⟩, [7], [(14, 30)]⟩, ⟨⟨2025, 6, 1⟩, [5], [(15, 0)]⟩] :=
  (c8_day_series_invariants
    [⟨⟨2025, 6, 1, 15, 0⟩, 5⟩, ⟨⟨2025, 5, 2, 14, 30⟩, 7⟩]
    [(2025, 5), (2025, 6)] 14 22
    [⟨⟨2025, 5, 2⟩, [7], [(14, 30)]⟩, ⟨⟨2025, 6, 1⟩, [5], [(15, 0)]⟩]
    (by rfl)).1

/-- Top-level names defined by the batt4 module (its constants and
functions, source lines 9 to 401). -/
def batt4TopLevelNames : List String :=
  ["EXCEL_PATH", "SHEET_NAME", "YEAR_MONTHS", "INTERVAL_HOURS", "UNIT_KWH",
   "MAX_POWER_KW_PER_UNIT", "SWEEP_START_KW", "SWEEP_END_KW", "SWEEP_STEP_KW",
   "CAPEX_PER_KWH", "MD_TARIFF_RM_PER_KW", "BILLING_PERIODS_PER_YEAR",
   "SWEEP_CSV", "VISUALIZATIONS_PDF", "load_month", "load_months",
   "build_thresholds", "compute_threshold_sweep_stats_highest",
   "create_visualizations", "main"]

/-- Name the api/analyze module imports from batt4 at its own import time
(source line 9 of api/analyze.py). -/
def analyzeRequiredImport : String := "run_pipeline_from_df"

/-- Whether the from-import of api/analyze succeeds: Python resolves the
imported name against the top-level names of batt4 and raises ImportError
when it is absent, before any request handler can be registered. -/
def analyzeModuleImportOk : Bool :=
  batt4TopLevelNames.contains analyzeRequiredImport

/-- Outcome of a request to the analyze endpoint at the granularity the
claim needs: either the module never loaded (its from-import failed), or
the handler runs and invokes the pipeline entrypoint. -/
inductive AnalyzeOutcome where
  | moduleImportFailure
  | pipelineInvoked
deriving DecidableEq

/-- Request handling of the analyze endpoint (api/analyze.py lines 50 to
78), abstracted over the request payload: the handler can only run, and
hence invoke run_pipeline_from_df, when the import of that name succeeded. -/
def handleAnalyzeRequest {ρ : Type} (_req : ρ) : AnalyzeOutcome :=
  if analyzeModuleImportOk then .pipelineInvoked else .moduleImportFailure

/-- C10: batt4 defines no run_pipeline_from_df, so the from-import of the
HTTP layer fails and no request can ever reach the pipeline. -/
theorem c10_import_always_fails :
    analyzeRequiredImport ∉ batt4TopLevelNames ∧
    analyzeModuleImportOk = false ∧
    ∀ req : Unit, handleAnalyzeRequest req = .moduleImportFailure := by
  refine ⟨by decide, by decide, fun req => ?_⟩
  rw [handleAnalyzeRequest]
  have h : analyzeModuleImportOk = false := by decide
  rw [h]
  rfl
